import Mathlib

/-!
A verification development for the shepherd stack-provisioning system.

The Python source is embedded shallowly:

* Python dicts with string keys become association lists with
  replace-or-append assignment (`alSet`), in-place list append at a key
  (`alAppendTo`) and `dict.update` (`pyUpdate`), all preserving insertion
  order exactly as CPython does.
* `shepherd.common.utils.pascal_to_underscore` is embedded as the two
  regex passes of the source (`p2uSub1`, `p2uSub2`) followed by ASCII
  lowercasing, operating on character lists.
* Resource serialization (`shepherd/common/plugins.py` `setattrs` /
  `getattrs` together with `Resource.serialize` / `Resource.deserialize`
  and the `Volume` subclass in `shepherd/resources/aws/volume.py`) is
  embedded over a universe `Val` of the primitive values that occur in
  resource dictionaries.
* The `validate_create` / `validate_destroy` decorators of
  `shepherd/common/plugins.py` become functions over a lifecycle state
  that carries the availability flag, the optional stack back-reference
  and an abstract remainder of the resource's fields; Python exceptions
  become `Except`.
* The task-graph executor (the external `arbiter` package) is modelled
  from the specification, see `STask` below.
* Stack orchestration (`shepherd/stack.py`: `provision_resources`,
  `deprovision_resources`, `_get_inverse_dependencies`,
  `get_global_resource_name`, `deserialize_resources`, `add_resource`,
  with `tasks_passed` from `shepherd/common/utils.py`) is embedded over
  resources carried as their local name, their dependency list and
  abstract concrete create/destroy bodies.
-/

/-! ## Python dict primitives -/

/-- Lookup in an insertion-ordered association list; Python dicts have
unique keys, so first match is the binding. -/
def alGet {α : Type} : List (String × α) → String → Option α
  | [], _ => none
  | (k1, v1) :: rest, k => if k1 = k then some v1 else alGet rest k

/-- Python `d[k] = v`: replace the binding in place if the key exists,
otherwise append the new binding at the end. -/
def alSet {α : Type} : List (String × α) → String → α → List (String × α)
  | [], k, v => [(k, v)]
  | (k1, v1) :: rest, k, v =>
    if k1 = k then (k1, v) :: rest else (k1, v1) :: alSet rest k v

/-- Python `k in d`. -/
def alContains {α : Type} (d : List (String × α)) (k : String) : Bool :=
  (alGet d k).isSome

/-- Python `d[k].append(x)` for a dict of lists (the key is assumed
present, as at every use site in the source). -/
def alAppendTo : List (String × List String) → String → String → List (String × List String)
  | [], _, _ => []
  | (k1, v1) :: rest, k, x =>
    if k1 = k then (k1, v1 ++ [x]) :: rest else (k1, v1) :: alAppendTo rest k x

/-- Python `d.update(upd)`: assign every binding of `upd` into `d`, in
`upd`'s iteration order. -/
def pyUpdate {α : Type} (d upd : List (String × α)) : List (String × α) :=
  upd.foldl (fun acc kv => alSet acc kv.1 kv.2) d

/-! ## pascal_to_underscore (shepherd/common/utils.py) -/

/-- ASCII `[A-Z]`, as in the source's regular expressions. -/
def isUpperA (c : Char) : Bool := 'A' ≤ c && c ≤ 'Z'

/-- ASCII `[a-z]`. -/
def isLowerA (c : Char) : Bool := 'a' ≤ c && c ≤ 'z'

/-- ASCII `[0-9]`. -/
def isDigitA (c : Char) : Bool := '0' ≤ c && c ≤ '9'

/-- Python `str.lower()` on the ASCII characters that occur in attribute
keys. -/
def lowerA (c : Char) : Char :=
  if isUpperA c then Char.ofNat (c.toNat + 32) else c

/-- First pass of `pascal_to_underscore`:
`re.sub('(.)([A-Z][a-z]+)', r'\1_\2', s)` — left-to-right,
non-overlapping, greedy on the lowercase run. The fuel argument (one
unit per consumed character, supplied as the input length by the
wrapper) only makes the recursion structural. -/
def p2uSub1F : Nat → List Char → List Char
  | 0, s => s
  | fuel + 1, c :: u :: l :: rest =>
    if isUpperA u && isLowerA l then
      c :: '_' :: u :: l ::
        (rest.takeWhile isLowerA ++ p2uSub1F fuel (rest.dropWhile isLowerA))
    else
      c :: p2uSub1F fuel (u :: l :: rest)
  | _, other => other

/-- Second pass of `pascal_to_underscore`:
`re.sub('([a-z0-9])([A-Z])', r'\1_\2', s1)`, again with structural
fuel. -/
def p2uSub2F : Nat → List Char → List Char
  | 0, s => s
  | fuel + 1, a :: b :: rest =>
    if (isLowerA a || isDigitA a) && isUpperA b then
      a :: '_' :: b :: p2uSub2F fuel rest
    else
      a :: p2uSub2F fuel (b :: rest)
  | _, other => other

/-- The first regex pass at full fuel. -/
def p2uSub1 (s : List Char) : List Char := p2uSub1F s.length s

/-- The second regex pass at full fuel. -/
def p2uSub2 (s : List Char) : List Char := p2uSub2F s.length s

/-- Function `pascal_to_underscore` from `shepherd/common/utils.py`. -/
def pascal_to_underscore (s : String) : String :=
  ⟨(p2uSub2 (p2uSub1 s.data)).map lowerA⟩

/-- Python `str.lower()` on a whole string (used for provider
comparison in `Stack.deserialize_resources`). -/
def pyLower (s : String) : String := ⟨s.data.map lowerA⟩

/-! ## Resource serialization (shepherd/common/plugins.py, volume.py) -/

/-- The primitive/collection values that occur in resource attribute
dictionaries: `None`, strings, booleans, integers and string-to-string
tag mappings. -/
inductive Val where
  | vnone : Val
  | vstr : String → Val
  | vbool : Bool → Val
  | vint : Int → Val
  | vstrmap : List (String × String) → Val
deriving DecidableEq

/-- The base attributes of `Resource` (`shepherd/common/plugins.py`):
exactly the fields listed in `self._attributes_map`. `setattr` stores the
raw dictionary value, so every field holds a `Val`. -/
structure Resource where
  local_name : Val
  global_name : Val
  provider : Val
  type : Val
  available : Val
  tags : Val
deriving DecidableEq

/-- Constructor `Resource.__init__(provider)` followed by the subclass setting
`_type`: `local_name`/`global_name` start as `None`, `available` as
`False`, `tags` as `{}`. -/
def Resource.init (provider typename : String) : Resource :=
  { local_name := .vnone
    global_name := .vnone
    provider := .vstr provider
    type := .vstr typename
    available := .vbool false
    tags := .vstrmap [] }

/-- Method `Resource.deserialize` via `setattrs`: for each key of the data
dict, convert with `pascal_to_underscore` and set the mapped attribute
when the converted key is in `_attributes_map`; unknown keys are
ignored. -/
def Resource.deserialize (r : Resource) (data : List (String × Val)) : Resource :=
  data.foldl (fun r kv =>
    let attr := pascal_to_underscore kv.1
    if attr = "local_name" then { r with local_name := kv.2 }
    else if attr = "global_name" then { r with global_name := kv.2 }
    else if attr = "provider" then { r with provider := kv.2 }
    else if attr = "type" then { r with type := kv.2 }
    else if attr = "available" then { r with available := kv.2 }
    else if attr = "tags" then { r with tags := kv.2 }
    else r) r

/-- Method `Resource.serialize` via `getattrs`: one entry per `_attributes_map`
key (every mapped attribute exists on the object). -/
def Resource.serialize (r : Resource) : List (String × Val) :=
  [("local_name", r.local_name),
   ("global_name", r.global_name),
   ("provider", r.provider),
   ("type", r.type),
   ("available", r.available),
   ("tags", r.tags)]

/-- Class `Volume` (`shepherd/resources/aws/volume.py`): the base resource
attributes plus the volume-specific fields of `__init__`. -/
structure Volume where
  base : Resource
  snapshot_id : Val
  volume_id : Val
  availability_zone : Val
  iops : Val
  size : Val
  volume_type : Val
  encrypted : Val
deriving DecidableEq

/-- Constructor `Volume.__init__`: base initialisation, then `_type = 'Volume'`,
`_provider = 'aws'`, `_volume_type = 'io1'`, `_encrypted = False`, the
rest `None`. -/
def Volume.init : Volume :=
  { base := Resource.init "aws" "Volume"
    snapshot_id := .vnone
    volume_id := .vnone
    availability_zone := .vnone
    iops := .vnone
    size := .vnone
    volume_type := .vstr "io1"
    encrypted := .vbool false }

/-- Method `Volume.deserialize`: first the base-class pass, then the explicit
per-key branches of the source. Note the source compares the converted
key against the literal `'volumeid'` in the `_volume_id` branch. -/
def Volume.deserialize (v : Volume) (data : List (String × Val)) : Volume :=
  let v1 := { v with base := Resource.deserialize v.base data }
  data.foldl (fun v kv =>
    let attr := pascal_to_underscore kv.1
    if attr = "snapshot_id" then { v with snapshot_id := kv.2 }
    else if attr = "volumeid" then { v with volume_id := kv.2 }
    else if attr = "availability_zone" then { v with availability_zone := kv.2 }
    else if attr = "iops" then { v with iops := kv.2 }
    else if attr = "size" then { v with size := kv.2 }
    else if attr = "encrypted" then { v with encrypted := kv.2 }
    else if attr = "volume_type" then { v with volume_type := kv.2 }
    else v) v1

/-- Method `Volume.serialize`: the base dictionary updated with the
volume-specific keys, among them `'volume_id'`. -/
def Volume.serialize (v : Volume) : List (String × Val) :=
  pyUpdate (Resource.serialize v.base)
    [("snapshot_id", v.snapshot_id),
     ("volume_id", v.volume_id),
     ("availability_zone", v.availability_zone),
     ("iops", v.iops),
     ("size", v.size),
     ("volume_type", v.volume_type),
     ("encrypted", v.encrypted)]

/-- A concrete volume carrying a provider-side id, as any volume does
after `_create_volume` has run. -/
def volumeWithId : Volume :=
  { Volume.init with
      base := { Volume.init.base with local_name := .vstr "TestVolume" }
      volume_id := .vstr "vol-123" }

/-! ## Resource lifecycle (shepherd/common/plugins.py decorators) -/

/-- The exceptions the embedded code raises
(`shepherd/common/exceptions.py`). -/
inductive Exc where
  | stackError : String → Exc
  | pluginError : String → Exc
deriving DecidableEq

/-- The value a concrete `create`/`destroy` body returns to the
decorator: Python `False`, `True`, or `None` (falling off the end).
Only the literal `False` is distinguished (`if passed is False`). -/
inductive PyRet where
  | pfalse : PyRet
  | ptrue : PyRet
  | pnone : PyRet
deriving DecidableEq

/-- The resource state the decorators see: the `_available` flag, the
optional `_stack` back-reference, and an abstract remainder standing
for every other field of the concrete resource. -/
structure LifeState (σ ρ : Type) where
  available : Bool
  stack : Option σ
  rest : ρ
deriving DecidableEq

/-- The message of the `StackError` raised by both decorators when the
stack back-reference is unset. -/
def unknown_stack_msg : String :=
  "Unknown parent stack. Make sure that the stack property is set prior to calling create"

/-- Decorator `Resource.validate_create`: if the resource is not available, a
missing stack raises `StackError`; otherwise the wrapped body runs and
the response is `False` when the body returned the literal `False`,
else the post-state availability. An already-available resource
short-circuits to `True` without running the body. -/
def validate_create {σ ρ : Type}
    (func : LifeState σ ρ → Except Exc (LifeState σ ρ × PyRet))
    (s : LifeState σ ρ) : Except Exc (LifeState σ ρ × Bool) :=
  if s.available = false then
    match s.stack with
    | none => .error (.stackError unknown_stack_msg)
    | some _ =>
      match func s with
      | .error e => .error e
      | .ok (s1, passed) =>
        if passed = .pfalse then .ok (s1, false) else .ok (s1, s1.available)
  else
    .ok (s, true)

/-- Decorator `Resource.validate_destroy`: symmetric to `validate_create`; the
response after the body is the negation of the post-state availability,
and an already-unavailable resource short-circuits to `True`. -/
def validate_destroy {σ ρ : Type}
    (func : LifeState σ ρ → Except Exc (LifeState σ ρ × PyRet))
    (s : LifeState σ ρ) : Except Exc (LifeState σ ρ × Bool) :=
  if s.available = true then
    match s.stack with
    | none => .error (.stackError unknown_stack_msg)
    | some _ =>
      match func s with
      | .error e => .error e
      | .ok (s1, passed) =>
        if passed = .pfalse then .ok (s1, false) else .ok (s1, !s1.available)
  else
    .ok (s, true)

/-! ## Task graph executor -/

/-- Modelled from the spec: the task-graph executor is the external
`arbiter` package (`create_task` / `arbiter.sync.run_tasks`), which is
not part of this repository's sources. A task has a unique name, a
state-transforming operation returning truthy/falsy (an operation that
raises counts as falsy), a list of prerequisite task names, and a retry
count with a delay between attempts (the delay is recorded but time is
not modelled). -/
structure STask (S : Type) where
  name : String
  op : S → S × Bool
  deps : List String
  retries : Nat
  delay : Nat

/-- Modelled from the spec: `create_task(name, function, dependencies,
retries, delay)`. -/
def create_task {S : Type} (name : String) (op : S → S × Bool)
    (deps : List String) (retries : Nat) (delay : Nat) : STask S :=
  ⟨name, op, deps, retries, delay⟩

/-- Modelled from the spec: the outcome of one executor run — the names
that reached a successful terminal state and the names that did not. -/
structure TaskResults where
  completed : List String
  failed : List String
deriving DecidableEq

/-- Modelled from the spec: run one task's operation up to `fuel`
attempts, stopping at the first truthy result. Returns the final state,
whether an attempt succeeded, and how many times the operation was
invoked. -/
def runAttempts {S : Type} (op : S → S × Bool) : Nat → S → S × Bool × Nat
  | 0, s => (s, false, 0)
  | fuel + 1, s =>
    match op s with
    | (s1, true) => (s1, true, 1)
    | (s1, false) =>
      let r := runAttempts op fuel s1
      (r.1, r.2.1, r.2.2 + 1)

/-- Modelled from the spec: find the first task all of whose
prerequisites are in the completed set, returning it together with the
remaining tasks. -/
def findEligible {S : Type} (comp : List String) :
    List (STask S) → Option (STask S × List (STask S))
  | [] => none
  | t :: rest =>
    if t.deps.all (fun d => comp.contains d) then some (t, rest)
    else
      match findEligible comp rest with
      | some (u, l) => some (u, t :: l)
      | none => none

/-- Modelled from the spec: the scheduling loop. While some task is
eligible, run it with its retry budget and add it to the completed or
failed set; when no task is eligible (its prerequisites failed or are
absent) the remaining tasks are marked failed without being invoked. -/
def runLoop {S : Type} : Nat → List (STask S) → S → List String → List String → S × TaskResults
  | 0, remaining, s, comp, fail => (s, ⟨comp, fail ++ remaining.map (fun t => t.name)⟩)
  | fuel + 1, remaining, s, comp, fail =>
    match findEligible comp remaining with
    | none => (s, ⟨comp, fail ++ remaining.map (fun t => t.name)⟩)
    | some (t, rest) =>
      let r := runAttempts t.op (t.retries + 1) s
      if r.2.1 then runLoop fuel rest r.1 (comp ++ [t.name]) fail
      else runLoop fuel rest r.1 comp (fail ++ [t.name])

/-- Modelled from the spec: `run_tasks(tasks)` — execute the collection
to termination (each task is scheduled at most once, so the task count
bounds the loop). -/
def run_tasks {S : Type} (tasks : List (STask S)) (s : S) : S × TaskResults :=
  runLoop tasks.length tasks s [] []

/-! ## Stack orchestration (shepherd/stack.py) -/

/-- The run-time view of one resource during an executor run: its
availability flag, whether its stack back-reference is set, and
instrumentation counters recording how many times its `create` and
`destroy` operations have been invoked. -/
structure RLife where
  available : Bool
  stackSet : Bool
  createN : Nat
  destroyN : Nat
deriving DecidableEq

/-- The shared state of a stack-level executor run: each local name's
resource view. -/
def RSt : Type := String → RLife

/-- Point update of the run state at one resource's local name. -/
def setR (s : RSt) (k : String) (v : RLife) : RSt :=
  fun x => if x = k then v else s x

/-- A resource as `provision_resources` / `deprovision_resources` see
it: its local name, the local names of `get_dependencies()`, and the
abstract bodies wrapped by `validate_create` / `validate_destroy`. Each
body reads its own availability flag and yields the new flag and the
Python return value. -/
structure PResource where
  local_name : String
  get_dependencies : List String
  innerCreate : Bool → Bool × PyRet
  innerDestroy : Bool → Bool × PyRet

/-- Lift an abstract concrete body into the shape `validate_create`
expects. -/
def liftInner (inner : Bool → Bool × PyRet) :
    LifeState Unit Unit → Except Exc (LifeState Unit Unit × PyRet) :=
  fun ls =>
    let r := inner ls.available
    .ok ({ ls with available := r.1 }, r.2)

/-- The lifecycle view of one run-state entry. -/
def lifeOf (rs : RLife) : LifeState Unit Unit :=
  ⟨rs.available, if rs.stackSet then some () else none, ()⟩

/-- Operation `resource.create` as a task operation: the `validate_create`
wrapper around the concrete body, acting on the resource's own entry of
the run state. A raised exception is a falsy task outcome for the
executor. The invocation counter is instrumentation. -/
def createOp (r : PResource) (st : RSt) : RSt × Bool :=
  let rs := st r.local_name
  match validate_create (liftInner r.innerCreate) (lifeOf rs) with
  | .error _ =>
    (setR st r.local_name { rs with createN := rs.createN + 1 }, false)
  | .ok (ls, resp) =>
    (setR st r.local_name
      { rs with available := ls.available, createN := rs.createN + 1 }, resp)

/-- Operation `resource.destroy` as a task operation, symmetric to `createOp`. -/
def destroyOp (r : PResource) (st : RSt) : RSt × Bool :=
  let rs := st r.local_name
  match validate_destroy (liftInner r.innerDestroy) (lifeOf rs) with
  | .error _ =>
    (setR st r.local_name { rs with destroyN := rs.destroyN + 1 }, false)
  | .ok (ls, resp) =>
    (setR st r.local_name
      { rs with available := ls.available, destroyN := rs.destroyN + 1 }, resp)

/-- The create-task list `provision_resources` builds: one task per
resource named by its local name, operation `resource.create`,
prerequisites the local names of its dependencies (arbiter defaults:
no retries, no delay). -/
def provisionTasks (resources : List PResource) : List (STask RSt) :=
  resources.map (fun r => create_task r.local_name (createOp r) r.get_dependencies 0 0)

/-- Method `Stack._get_inverse_dependencies`: for each resource, assign
`inverse_dependencies[resource.local_name] = []`, then for each of its
dependencies ensure the dependency's key exists and append the
resource's local name to it. -/
def get_inverse_dependencies (resources : List PResource) : List (String × List String) :=
  resources.foldl (fun inv r =>
    let inv1 := alSet inv r.local_name []
    r.get_dependencies.foldl (fun inv2 dep =>
      let inv3 := if alContains inv2 dep then inv2 else alSet inv2 dep []
      alAppendTo inv3 dep r.local_name) inv1) []

/-- The destroy-task list `deprovision_resources` builds: one task per
resource, operation `resource.destroy`, prerequisites taken from the
inverse dependency mapping at the resource's local name. -/
def deprovisionTasks (resources : List PResource) : List (STask RSt) :=
  let inv := get_inverse_dependencies resources
  resources.map (fun r =>
    create_task r.local_name (destroyOp r) ((alGet inv r.local_name).getD []) 0 0)

/-- Rendering of a set of task names inside the aggregate failure
message (Python formats the arbiter result sets into the string). -/
def namesRepr (names : List String) : String :=
  String.intercalate ", " names

/-- The aggregate message built by `tasks_passed`:
`'.\nCompleted=...' + '\nFailed=...'` appended to the caller's
message. -/
def full_msg (msg : String) (results : TaskResults) : String :=
  msg ++ ".\nCompleted=" ++ namesRepr results.completed
      ++ "\nFailed=" ++ namesRepr results.failed

/-- Function `tasks_passed(results, logger, msg, exception=StackError)` from
`shepherd/common/utils.py`, as provisioning and deprovisioning call it:
raises `StackError(full_msg)` when any task failed, else returns
`True`. -/
def tasks_passed (results : TaskResults) (msg : String) : Except Exc Bool :=
  if results.failed.length > 0 then
    .error (.stackError (full_msg msg results))
  else
    .ok true

/-- Method `Stack.provision_resources(resources)`: build the create tasks, run
them, then `tasks_passed(results, ..., 'Failed to provision resources',
StackError)`. Returns the final run state, the executor results and the
call's outcome. -/
def provision_resources (resources : List PResource) (s : RSt) :
    RSt × TaskResults × Except Exc Bool :=
  let r := run_tasks (provisionTasks resources) s
  (r.1, r.2, tasks_passed r.2 "Failed to provision resources")

/-- Method `Stack.deprovision_resources(resources)`: build the destroy tasks
with inverse prerequisites, run them, then `tasks_passed(results, ...,
'Failed to deprovision resources', StackError)`. -/
def deprovision_resources (resources : List PResource) (s : RSt) :
    RSt × TaskResults × Except Exc Bool :=
  let r := run_tasks (deprovisionTasks resources) s
  (r.1, r.2, tasks_passed r.2 "Failed to deprovision resources")

/-- Method `Stack.get_global_resource_name(name)`:
`'{}_{}'.format(name, self._global_name)[0:63]`, over character
lists. The first argument is the stack's global name. -/
def get_global_resource_name (stack_global_name name : List Char) : List Char :=
  (name ++ '_' :: stack_global_name).take 63

/-! ## deserialize_resources (shepherd/stack.py) -/

/-- One entry of the resource-definition list handed to
`Stack.deserialize_resources`; only the `type` and `provider` keys
steer plugin matching. -/
structure RsrcDef where
  type : String
  provider : String
deriving DecidableEq

/-- The inner loop of `deserialize_resources`: for every plugin
instance returned for the definition's type, a matching provider
(case-insensitive) deserializes and adds the resource, a mismatch
raises `PluginError`. -/
def addMatching (d : RsrcDef) : List String → List RsrcDef → Except Exc (List RsrcDef)
  | [], acc => .ok acc
  | p :: rest, acc =>
    if pyLower p = pyLower d.provider then addMatching d rest (acc ++ [d])
    else
      .error (.pluginError
        ("Failed to locate resource named " ++ d.type ++ " for provider " ++ pyLower d.provider))

/-- Method `Stack.deserialize_resources(resource_list)` with the plugin
registry abstracted as a map from a plugin name to the providers of the
instances `config.get_plugins('Resource', name)` returns: an empty
lookup raises `PluginError`, otherwise each matching instance is
deserialized and added. `acc` is the stack's current resource list. -/
def deserialize_resources (reg : String → List String) :
    List RsrcDef → List RsrcDef → Except Exc (List RsrcDef)
  | [], acc => .ok acc
  | d :: rest, acc =>
    let plugins := reg d.type
    if plugins.isEmpty then
      .error (.pluginError ("Failed to locate resource plugin named " ++ d.type))
    else
      match addMatching d plugins acc with
      | .error e => .error e
      | .ok acc2 => deserialize_resources reg rest acc2

/-- A resource definition is bad when its type matches no loaded plugin
or some matched plugin's provider differs (case-insensitively) from the
definition's. -/
def badDef (reg : String → List String) (d : RsrcDef) : Prop :=
  reg d.type = [] ∨ ∃ p ∈ reg d.type, pyLower p ≠ pyLower d.provider

/-! ## add_resource (shepherd/stack.py) -/

/-- The stack attributes a resource's back-reference observes. -/
structure StackCore where
  local_name : String
  global_name : String
  tags : List (String × String)
deriving DecidableEq

/-- A resource as `add_resource` sees it: its local name, its tag
mapping and its optional stack back-reference. -/
structure AttachedResource where
  local_name : String
  tags : List (String × String)
  stack : Option StackCore
deriving DecidableEq

/-- A stack: its core attributes and its ordered resource
collection. -/
structure StackSt where
  core : StackCore
  resources : List AttachedResource
deriving DecidableEq

/-- Method `Stack.add_resource(resource)`: merge the stack tags into the
resource tags (`newtags.update(self._tags)`, so stack values win), set
the stack back-reference, and append the resource to the
collection. -/
def add_resource (st : StackSt) (r : AttachedResource) : StackSt :=
  let newtags := pyUpdate r.tags st.core.tags
  let r2 := { r with tags := newtags, stack := some st.core }
  { st with resources := st.resources ++ [r2] }

/-! ## Counting tasks (retry-bound instrumentation) -/

/-- A generic task description for the retry-bound property: the
operation increments the invocation counter at the task's name and
succeeds according to an arbitrary oracle over the attempt number. -/
structure CSpec where
  name : String
  deps : List String
  retries : Nat
  delay : Nat
  oracle : Nat → Bool

/-- The counting operation of a `CSpec`. -/
def countingOp (nm : String) (oracle : Nat → Bool) :
    (String → Nat) → (String → Nat) × Bool :=
  fun s => (fun x => if x = nm then s nm + 1 else s x, oracle (s nm))

/-- The executor task of a `CSpec`. -/
def mkCountingTask (c : CSpec) : STask (String → Nat) :=
  create_task c.name (countingOp c.name c.oracle) c.deps c.retries c.delay

/-! ## Concrete fixtures -/

/-- A concrete body that leaves the state alone and returns `True`. -/
def idBody : LifeState Unit Unit → Except Exc (LifeState Unit Unit × PyRet) :=
  fun ls => .ok (ls, .ptrue)

/-- A resource whose create body brings it available and whose destroy
body takes it down, both returning `True`. -/
def resCreateOk : PResource :=
  ⟨"A", [], fun _ => (true, .ptrue), fun _ => (false, .ptrue)⟩

/-- A resource whose create and destroy bodies leave availability
unchanged and return the literal `False`. -/
def resCreateFail : PResource :=
  ⟨"B", [], fun av => (av, .pfalse), fun av => (av, .pfalse)⟩

/-- A run state in which every resource is unavailable with its stack
back-reference set. -/
def s0Unavailable : RSt := fun _ => ⟨false, true, 0, 0⟩

/-- A run state in which every resource is available with its stack
back-reference set. -/
def s0Available : RSt := fun _ => ⟨true, true, 0, 0⟩

/-- Resource `A` depending on resource `B`, listed before it. -/
def resDependent : PResource :=
  ⟨"A", ["B"], fun _ => (true, .ptrue), fun _ => (false, .ptrue)⟩

/-- Resource `B` with no dependencies. -/
def resDependency : PResource :=
  ⟨"B", [], fun _ => (true, .ptrue), fun _ => (false, .ptrue)⟩

/-- A counting task that always fails, configured with two retries. -/
def cAlwaysFail : CSpec := ⟨"A", [], 2, 0, fun _ => false⟩

/-- A registry loading exactly one Resource plugin: `Volume` for
provider `aws`. -/
def regVolumeOnly : String → List String :=
  fun t => if t = "Volume" then ["aws"] else []

/-- A definition whose type matches no loaded plugin. -/
def defUnknownType : RsrcDef := ⟨"Foo", "aws"⟩

/-- A definition whose type matches but whose provider does not. -/
def defWrongProvider : RsrcDef := ⟨"Volume", "gce"⟩

/-- A concrete stack with one tag colliding with the resource below. -/
def stackFixture : StackSt :=
  ⟨⟨"test_stack", "test_stack_2015", [("stack_name", "test_stack"), ("env", "prod")]⟩, []⟩

/-- A concrete resource carrying a prior value for the colliding
`env` tag and one private tag. -/
def resourceFixture : AttachedResource :=
  ⟨"TestVolume", [("env", "dev"), ("role", "data")], none⟩

/-! ## Theorems -/

/-- Claim C1: the spec's round-trip law says deserializing
`r.serialize()` into a fresh resource of the same concrete type
reproduces every observable attribute. The code violates it for
`Volume`: `serialize` writes the key `'volume_id'` while `deserialize`
matches the converted key against the literal `'volumeid'`, so a
volume's provider-side id is dropped — the round-tripped volume equals
the original except that `volume_id` has fallen back to `None`. -/
theorem volume_serialize_roundtrip_drops_volume_id :
    Volume.deserialize Volume.init (Volume.serialize volumeWithId) =
      { volumeWithId with volume_id := Val.vnone } ∧
    volumeWithId.volume_id = Val.vstr "vol-123" := by
  decide

/-- Claim C2: `create()` on an already-available resource succeeds as a
no-op — for every concrete body `f` the wrapped call returns `True`
with the state untouched (so the body is never consulted) — and
symmetrically `destroy()` on an unavailable resource succeeds as a
no-op for every body `g`. -/
theorem create_destroy_short_circuit {σ ρ : Type}
    (f g : LifeState σ ρ → Except Exc (LifeState σ ρ × PyRet))
    (s : LifeState σ ρ) :
    (s.available = true → validate_create f s = Except.ok (s, true)) ∧
    (s.available = false → validate_destroy g s = Except.ok (s, true)) := by
  constructor
  · intro h
    simp [validate_create, h]
  · intro h
    simp [validate_destroy, h]

/-- Witness for `create_destroy_short_circuit` at a concrete state and
body. -/
theorem create_destroy_short_circuit_witness :
    ((⟨true, some (), ()⟩ : LifeState Unit Unit).available = true ∧
      validate_create idBody ⟨true, some (), ()⟩ = Except.ok (⟨true, some (), ()⟩, true)) ∧
    ((⟨false, some (), ()⟩ : LifeState Unit Unit).available = false ∧
      validate_destroy idBody ⟨false, some (), ()⟩ = Except.ok (⟨false, some (), ()⟩, true)) :=
  ⟨⟨rfl, (create_destroy_short_circuit idBody idBody ⟨true, some (), ()⟩).1 rfl⟩,
   ⟨rfl, (create_destroy_short_circuit idBody idBody ⟨false, some (), ()⟩).2 rfl⟩⟩

/-- Claim C3 counterexample: the claim says any `create()` or
`destroy()` with an unset stack back-reference raises `StackError`. On
an already-available resource with `stack = None`, `create()` does not
raise — the availability short-circuit returns success before the stack
check is reached. -/
theorem create_with_unset_stack_returns_ok :
    validate_create idBody ⟨true, none, ()⟩ = Except.ok (⟨true, none, ()⟩, true) := rfl

/-- Claim C3 (amended): with the stack back-reference unset, `create()`
raises `StackError` exactly when the resource is unavailable and
`destroy()` exactly when it is available; in the opposite cases the
availability short-circuit returns success without consulting the
stack. -/
theorem stack_precondition_amended {σ ρ : Type}
    (f : LifeState σ ρ → Except Exc (LifeState σ ρ × PyRet))
    (s : LifeState σ ρ) (hs : s.stack = none) :
    (s.available = false →
      validate_create f s = Except.error (Exc.stackError unknown_stack_msg)) ∧
    (s.available = true → validate_create f s = Except.ok (s, true)) ∧
    (s.available = true →
      validate_destroy f s = Except.error (Exc.stackError unknown_stack_msg)) ∧
    (s.available = false → validate_destroy f s = Except.ok (s, true)) := by
  refine ⟨?_, ?_, ?_, ?_⟩ <;> intro h <;>
    simp [validate_create, validate_destroy, h, hs]

/-- Witness for `stack_precondition_amended` at concrete states. -/
theorem stack_precondition_amended_witness :
    ((⟨false, none, ()⟩ : LifeState Unit Unit).stack = none ∧
      validate_create idBody ⟨false, none, ()⟩ =
        Except.error (Exc.stackError unknown_stack_msg)) ∧
    ((⟨true, none, ()⟩ : LifeState Unit Unit).stack = none ∧
      validate_destroy idBody ⟨true, none, ()⟩ =
        Except.error (Exc.stackError unknown_stack_msg)) :=
  ⟨⟨rfl, (stack_precondition_amended idBody ⟨false, none, ()⟩ rfl).1 rfl⟩,
   ⟨rfl, (stack_precondition_amended idBody ⟨true, none, ()⟩ rfl).2.2.1 rfl⟩⟩

/-- Claim C8: `get_global_resource_name(name)` returns a prefix of
`"{name}_{stack.global_name}"`, never longer than 63 characters, and
still starting with `name` whenever `name` is at most 63 characters
long. -/
theorem get_global_resource_name_spec (g nm : List Char) :
    (∃ t, nm ++ '_' :: g = get_global_resource_name g nm ++ t) ∧
    (get_global_resource_name g nm).length ≤ 63 ∧
    (nm.length ≤ 63 → ∃ t, get_global_resource_name g nm = nm ++ t) := by
  refine ⟨⟨(nm ++ '_' :: g).drop 63, (List.take_append_drop 63 _).symm⟩, ?_, ?_⟩
  · rw [get_global_resource_name, List.length_take]
    exact Nat.min_le_left _ _
  · intro h
    refine ⟨('_' :: g).take (63 - nm.length), ?_⟩
    rw [get_global_resource_name, List.take_append_eq_append_take,
      List.take_of_length_le h]

/-- Witness for `get_global_resource_name_spec` on a short name. -/
theorem get_global_resource_name_spec_witness :
    (['K', 'e', 'y'] : List Char).length ≤ 63 ∧
    (∃ t, ['K', 'e', 'y'] ++ '_' :: ['S'] = get_global_resource_name ['S'] ['K', 'e', 'y'] ++ t) ∧
    (get_global_resource_name ['S'] ['K', 'e', 'y']).length ≤ 63 ∧
    (∃ t, get_global_resource_name ['S'] ['K', 'e', 'y'] = ['K', 'e', 'y'] ++ t) :=
  ⟨by decide,
   (get_global_resource_name_spec ['S'] ['K', 'e', 'y']).1,
   (get_global_resource_name_spec ['S'] ['K', 'e', 'y']).2.1,
   (get_global_resource_name_spec ['S'] ['K', 'e', 'y']).2.2 (by decide)⟩

/-- Claim C4: the spec says the deprovision prerequisites are exactly
the inverted creation dependencies. The code violates this whenever a
dependent resource precedes its dependency in the list:
`_get_inverse_dependencies` executes
`inverse_dependencies[resource.local_name] = []` unconditionally, so
processing `B` discards the edge already recorded for `B` while
processing the earlier `A`. With `A` (depending on `B`) listed before
`B`, the destroy-task for `B` ends with no prerequisites at all; with
`B` listed first the expected inversion appears. -/
theorem deprovision_inverse_dependency_clobbered :
    resDependency.local_name ∈ resDependent.get_dependencies ∧
    (deprovisionTasks [resDependent, resDependency]).map (fun t => (t.name, t.deps)) =
      [("A", []), ("B", [])] ∧
    (deprovisionTasks [resDependency, resDependent]).map (fun t => (t.name, t.deps)) =
      [("B", ["A"]), ("A", [])] := by
  decide

/-- Lemma: `addMatching` only ever raises `PluginError`. -/
theorem addMatching_error_shape (d : RsrcDef) :
    ∀ (ps : List String) (acc : List RsrcDef) (e : Exc),
      addMatching d ps acc = .error e → ∃ m, e = Exc.pluginError m := by
  intro ps
  induction ps with
  | nil => intro acc e h; simp [addMatching] at h
  | cons p rest ih =>
    intro acc e h
    rw [addMatching] at h
    split at h
    · exact ih _ _ h
    · exact ⟨_, (Except.error.injEq _ _).mp h.symm⟩

/-- If some plugin instance for the definition's type has a
mismatching provider, the inner loop raises `PluginError`. -/
theorem addMatching_mismatch_error (d : RsrcDef) :
    ∀ (ps : List String) (acc : List RsrcDef),
      (∃ p ∈ ps, pyLower p ≠ pyLower d.provider) →
      ∃ m, addMatching d ps acc = .error (.pluginError m) := by
  intro ps
  induction ps with
  | nil => intro acc h; simp at h
  | cons p rest ih =>
    intro acc h
    rw [addMatching]
    by_cases hp : pyLower p = pyLower d.provider
    · rw [if_pos hp]
      rcases h with ⟨q, hq, hne⟩
      rcases List.mem_cons.mp hq with rfl | hqr
      · exact absurd hp hne
      · exact ih _ ⟨q, hqr, hne⟩
    · rw [if_neg hp]
      exact ⟨_, rfl⟩

/-- Claim C9: if any definition in the list given to
`deserialize_resources` has a type matching no loaded Resource plugin,
or a matched plugin whose provider differs, the call raises
`PluginError`. The function itself only deserializes and attaches
resources, so the error is raised before any resource lifecycle
operation can run. -/
theorem deserialize_resources_bad_def_errors
    (reg : String → List String) (defs : List RsrcDef) (acc : List RsrcDef)
    (d : RsrcDef) (hd : d ∈ defs) (hbad : badDef reg d) :
    ∃ m, deserialize_resources reg defs acc = .error (.pluginError m) := by
  induction defs generalizing acc with
  | nil => exact absurd hd (List.not_mem_nil d)
  | cons d0 rest ih =>
    rw [deserialize_resources]
    by_cases hemp : (reg d0.type).isEmpty
    · rw [if_pos hemp]
      exact ⟨_, rfl⟩
    · rw [if_neg hemp]
      cases hAdd : addMatching d0 (reg d0.type) acc with
      | error e =>
        obtain ⟨m, rfl⟩ := addMatching_error_shape d0 _ _ _ hAdd
        exact ⟨m, rfl⟩
      | ok acc2 =>
        rcases List.mem_cons.mp hd with rfl | hrest
        · rcases hbad with hb | hb
          · rw [hb] at hemp
            exact absurd rfl hemp
          · obtain ⟨m, hm⟩ := addMatching_mismatch_error d _ acc hb
            rw [hm] at hAdd
            exact absurd hAdd (by simp)
        · exact ih acc2 hrest

/-- Witness for `deserialize_resources_bad_def_errors`: an unknown
type, and a known type under the wrong provider. -/
theorem deserialize_resources_bad_def_errors_witness :
    (defUnknownType ∈ [defUnknownType] ∧ badDef regVolumeOnly defUnknownType ∧
      ∃ m, deserialize_resources regVolumeOnly [defUnknownType] [] =
        .error (.pluginError m)) ∧
    (defWrongProvider ∈ [defWrongProvider] ∧ badDef regVolumeOnly defWrongProvider ∧
      ∃ m, deserialize_resources regVolumeOnly [defWrongProvider] [] =
        .error (.pluginError m)) :=
  ⟨⟨by decide, Or.inl rfl,
    deserialize_resources_bad_def_errors regVolumeOnly [defUnknownType] []
      defUnknownType (by decide) (Or.inl rfl)⟩,
   ⟨by decide, Or.inr ⟨"aws", by decide, by decide⟩,
    deserialize_resources_bad_def_errors regVolumeOnly [defWrongProvider] []
      defWrongProvider (by decide) (Or.inr ⟨"aws", by decide, by decide⟩)⟩⟩

/-- Assigning a key makes it the key's binding. -/
theorem alGet_alSet_self {α : Type} (d : List (String × α)) (k : String) (v : α) :
    alGet (alSet d k v) k = some v := by
  induction d with
  | nil => simp [alSet, alGet]
  | cons kv rest ih =>
    obtain ⟨k1, v1⟩ := kv
    simp only [alSet]
    rcases eq_or_ne k1 k with rfl | hne
    · simp [alGet]
    · rw [if_neg hne]
      simp only [alGet]
      rw [if_neg hne]
      exact ih

/-- Assigning a key leaves every other key's binding alone. -/
theorem alGet_alSet_ne {α : Type} (d : List (String × α)) (k k2 : String) (v : α)
    (h : k2 ≠ k) : alGet (alSet d k v) k2 = alGet d k2 := by
  induction d with
  | nil =>
    simp only [alSet, alGet]
    rw [if_neg (Ne.symm h)]
  | cons kv rest ih =>
    obtain ⟨k1, v1⟩ := kv
    simp only [alSet]
    rcases eq_or_ne k1 k with rfl | hne
    · rw [if_pos rfl]
      simp only [alGet]
      rw [if_neg (Ne.symm h), if_neg (Ne.symm h)]
    · rw [if_neg hne]
      simp only [alGet]
      rcases eq_or_ne k1 k2 with rfl | hne2
      · rw [if_pos rfl, if_pos rfl]
      · rw [if_neg hne2, if_neg hne2]
        exact ih

/-- Update lemma: `dict.update` leaves keys outside the update dict untouched. -/
theorem alGet_pyUpdate_not_mem {α : Type} (upd : List (String × α)) :
    ∀ (d : List (String × α)) (k : String), k ∉ upd.map Prod.fst →
      alGet (pyUpdate d upd) k = alGet d k := by
  induction upd with
  | nil => intro d k _; rfl
  | cons kv rest ih =>
    intro d k hk
    rw [List.map_cons, List.mem_cons] at hk
    push_neg at hk
    rw [pyUpdate, List.foldl_cons]
    have h2 := ih (alSet d kv.1 kv.2) k hk.2
    rw [pyUpdate] at h2
    rw [h2]
    exact alGet_alSet_ne d kv.1 k kv.2 hk.1

/-- A key absent from a dict has no binding. -/
theorem alGet_none_not_mem {α : Type} (d : List (String × α)) (k : String) :
    alGet d k = none → k ∉ d.map Prod.fst := by
  induction d with
  | nil => intro _; simp
  | cons kv rest ih =>
    obtain ⟨k1, v1⟩ := kv
    intro h
    simp only [alGet] at h
    rcases eq_or_ne k1 k with rfl | hne
    · rw [if_pos rfl] at h
      exact Option.noConfusion h
    · rw [if_neg hne] at h
      simp only [List.map_cons, List.mem_cons]
      push_neg
      exact ⟨Ne.symm hne, ih h⟩

/-- With unique keys in the update dict (as every Python dict has),
every binding of the update dict wins in `dict.update`. -/
theorem alGet_pyUpdate_of_nodup {α : Type} (upd : List (String × α)) :
    ∀ (d : List (String × α)) (k : String) (v : α),
      (upd.map Prod.fst).Nodup → alGet upd k = some v →
      alGet (pyUpdate d upd) k = some v := by
  induction upd with
  | nil => intro d k v _ h; exact Option.noConfusion h
  | cons kv rest ih =>
    intro d k v hnd h
    obtain ⟨k1, v1⟩ := kv
    rw [List.map_cons, List.nodup_cons] at hnd
    simp only [alGet] at h
    rw [pyUpdate, List.foldl_cons]
    rcases eq_or_ne k1 k with rfl | hne
    · rw [if_pos rfl] at h
      have h2 := alGet_pyUpdate_not_mem rest (alSet d k1 v1) k1 hnd.1
      rw [pyUpdate] at h2
      rw [h2, alGet_alSet_self, h]
    · rw [if_neg hne] at h
      have h2 := ih (alSet d k1 v1) k v hnd.2 h
      rw [pyUpdate] at h2
      exact h2

/-- Claim C10: after `add_resource`, the resource appended at the end
of the collection (previous resources untouched) carries the stack
back-reference, holds every stack tag with the stack's value winning on
collisions, and keeps its own bindings for keys the stack does not
tag. -/
theorem add_resource_spec (st : StackSt) (r : AttachedResource)
    (hnd : (st.core.tags.map Prod.fst).Nodup) :
    ∃ r2, (add_resource st r).resources = st.resources ++ [r2] ∧
      r2.local_name = r.local_name ∧
      r2.stack = some st.core ∧
      (∀ k v, alGet st.core.tags k = some v → alGet r2.tags k = some v) ∧
      (∀ k, alGet st.core.tags k = none → alGet r2.tags k = alGet r.tags k) := by
  refine ⟨{ r with tags := pyUpdate r.tags st.core.tags, stack := some st.core },
    rfl, rfl, rfl, ?_, ?_⟩
  · intro k v h
    exact alGet_pyUpdate_of_nodup st.core.tags r.tags k v hnd h
  · intro k h
    exact alGet_pyUpdate_not_mem st.core.tags r.tags k (alGet_none_not_mem _ _ h)

/-- Witness for `add_resource_spec` on a stack and resource with a
colliding `env` tag. -/
theorem add_resource_spec_witness :
    (stackFixture.core.tags.map Prod.fst).Nodup ∧
    ∃ r2, (add_resource stackFixture resourceFixture).resources =
        stackFixture.resources ++ [r2] ∧
      r2.local_name = resourceFixture.local_name ∧
      r2.stack = some stackFixture.core ∧
      (∀ k v, alGet stackFixture.core.tags k = some v → alGet r2.tags k = some v) ∧
      (∀ k, alGet stackFixture.core.tags k = none →
        alGet r2.tags k = alGet resourceFixture.tags k) :=
  ⟨by decide, add_resource_spec stackFixture resourceFixture (by decide)⟩

/-- Lemma: `tasks_passed` raises `StackError` carrying the aggregate message
exactly when the failed set is non-empty, and returns `True`
otherwise. -/
theorem tasks_passed_iff (results : TaskResults) (msg : String) :
    (tasks_passed results msg =
        Except.error (Exc.stackError (full_msg msg results)) ↔
      results.failed ≠ []) ∧
    (results.failed = [] → tasks_passed results msg = Except.ok true) := by
  rw [tasks_passed]
  by_cases hf : results.failed.length > 0
  · rw [if_pos hf]
    exact ⟨⟨fun _ => List.ne_nil_of_length_pos hf, fun _ => rfl⟩,
      fun h => absurd hf (by rw [h]; simp)⟩
  · rw [if_neg hf]
    refine ⟨⟨fun h => Except.noConfusion h, fun h => ?_⟩, fun _ => rfl⟩
    exact absurd (List.length_pos.mpr h) hf

/-- Claim C5: `provision_resources` and `deprovision_resources` raise a
`StackError` exactly when the executor run ends with a non-empty failed
set, the raised error's message carrying the completed and failed
resource names; when every task completes both return normally. -/
theorem provision_deprovision_raise_iff (resources : List PResource) (s : RSt) :
    ((provision_resources resources s).2.2 =
        Except.error (Exc.stackError (full_msg "Failed to provision resources"
          (run_tasks (provisionTasks resources) s).2)) ↔
      (run_tasks (provisionTasks resources) s).2.failed ≠ []) ∧
    ((run_tasks (provisionTasks resources) s).2.failed = [] →
      (provision_resources resources s).2.2 = Except.ok true) ∧
    ((deprovision_resources resources s).2.2 =
        Except.error (Exc.stackError (full_msg "Failed to deprovision resources"
          (run_tasks (deprovisionTasks resources) s).2)) ↔
      (run_tasks (deprovisionTasks resources) s).2.failed ≠ []) ∧
    ((run_tasks (deprovisionTasks resources) s).2.failed = [] →
      (deprovision_resources resources s).2.2 = Except.ok true) :=
  ⟨(tasks_passed_iff (run_tasks (provisionTasks resources) s).2
      "Failed to provision resources").1,
   (tasks_passed_iff (run_tasks (provisionTasks resources) s).2
      "Failed to provision resources").2,
   (tasks_passed_iff (run_tasks (deprovisionTasks resources) s).2
      "Failed to deprovision resources").1,
   (tasks_passed_iff (run_tasks (deprovisionTasks resources) s).2
      "Failed to deprovision resources").2⟩

/-- Witness for `provision_deprovision_raise_iff`: a failing and a
succeeding provision, and a failing and a succeeding deprovision. -/
theorem provision_deprovision_raise_iff_witness :
    ((run_tasks (provisionTasks [resCreateFail]) s0Unavailable).2.failed ≠ [] ∧
      (provision_resources [resCreateFail] s0Unavailable).2.2 =
        Except.error (Exc.stackError (full_msg "Failed to provision resources"
          (run_tasks (provisionTasks [resCreateFail]) s0Unavailable).2))) ∧
    ((run_tasks (provisionTasks [resCreateOk]) s0Unavailable).2.failed = [] ∧
      (provision_resources [resCreateOk] s0Unavailable).2.2 = Except.ok true) ∧
    ((run_tasks (deprovisionTasks [resCreateFail]) s0Available).2.failed ≠ [] ∧
      (deprovision_resources [resCreateFail] s0Available).2.2 =
        Except.error (Exc.stackError (full_msg "Failed to deprovision resources"
          (run_tasks (deprovisionTasks [resCreateFail]) s0Available).2))) ∧
    ((run_tasks (deprovisionTasks [resCreateOk]) s0Available).2.failed = [] ∧
      (deprovision_resources [resCreateOk] s0Available).2.2 = Except.ok true) :=
  ⟨⟨by decide,
    (provision_deprovision_raise_iff [resCreateFail] s0Unavailable).1.mpr (by decide)⟩,
   ⟨by decide,
    (provision_deprovision_raise_iff [resCreateOk] s0Unavailable).2.1 (by decide)⟩,
   ⟨by decide,
    (provision_deprovision_raise_iff [resCreateFail] s0Available).2.2.1.mpr (by decide)⟩,
   ⟨by decide,
    (provision_deprovision_raise_iff [resCreateOk] s0Available).2.2.2 (by decide)⟩⟩

/-- An eligible task found by `findEligible` together with the leftover
list is a permutation of the input list. -/
theorem findEligible_perm {S : Type} (comp : List String) :
    ∀ (l : List (STask S)) (t : STask S) (rest : List (STask S)),
      findEligible comp l = some (t, rest) → l.Perm (t :: rest) := by
  intro l
  induction l with
  | nil => intro t rest h; exact Option.noConfusion h
  | cons t0 l0 ih =>
    intro t rest h
    rw [findEligible] at h
    split at h
    · have he := Option.some.inj h
      have h1 : t0 = t := congrArg Prod.fst he
      have h2 : l0 = rest := congrArg Prod.snd he
      rw [← h1, ← h2]
    · cases hh : findEligible comp l0 with
      | some ul =>
        obtain ⟨u, l1⟩ := ul
        rw [hh] at h
        have he := Option.some.inj h
        have h1 : u = t := congrArg Prod.fst he
        have h2 : t0 :: l1 = rest := congrArg Prod.snd he
        rw [← h1, ← h2]
        exact ((ih u l1 hh).cons t0).trans (List.Perm.swap u t0 l1)
      | none => rw [hh] at h; exact Option.noConfusion h

/-- Any state measure each attempt preserves is preserved by the whole
retry loop. -/
theorem runAttempts_invariant {S γ : Type} (op : S → S × Bool) (m : S → γ)
    (hop : ∀ st, m (op st).1 = m st) :
    ∀ (fuel : Nat) (st : S), m (runAttempts op fuel st).1 = m st := by
  intro fuel
  induction fuel with
  | zero => intro st; rfl
  | succ n ih =>
    intro st
    rw [runAttempts]
    cases hos : op st with
    | mk s1 b =>
      have h1 : m s1 = m st := by
        have h0 := hop st
        rw [hos] at h0
        exact h0
      cases b
      · dsimp only
        rw [ih s1, h1]
      · exact h1

/-- Any state measure each task's operation preserves is preserved by
the scheduling loop. -/
theorem runLoop_invariant {S γ : Type} (m : S → γ) :
    ∀ (fuel : Nat) (remaining : List (STask S)) (s : S) (comp fail : List String),
      (∀ t ∈ remaining, ∀ st, m (t.op st).1 = m st) →
      m (runLoop fuel remaining s comp fail).1 = m s := by
  intro fuel
  induction fuel with
  | zero => intro remaining s comp fail _; rfl
  | succ n ih =>
    intro remaining s comp fail hops
    rw [runLoop]
    cases hfe : findEligible comp remaining with
    | none => rfl
    | some tr =>
      obtain ⟨t, rest⟩ := tr
      have hperm := findEligible_perm comp remaining t rest hfe
      have hmem : t ∈ remaining := hperm.mem_iff.mpr (List.mem_cons_self _ _)
      have hrest : ∀ u ∈ rest, ∀ st, m (u.op st).1 = m st :=
        fun u hu => hops u (hperm.mem_iff.mpr (List.mem_cons_of_mem _ hu))
      have hatt := runAttempts_invariant t.op m (hops t hmem) (t.retries + 1) s
      dsimp only
      split
      · rw [ih rest _ (comp ++ [t.name]) fail hrest, hatt]
      · rw [ih rest _ comp (fail ++ [t.name]) hrest, hatt]

/-- An operation that bumps a counter by at most one per invocation
bumps it by at most the attempt budget across the retry loop. -/
theorem runAttempts_le_of_incAt (op : (String → Nat) → (String → Nat) × Bool)
    (x : String) (hop : ∀ st, (op st).1 x ≤ st x + 1) :
    ∀ (fuel : Nat) (st : String → Nat),
      (runAttempts op fuel st).1 x ≤ st x + fuel := by
  intro fuel
  induction fuel with
  | zero => intro st; exact Nat.le_add_right _ _
  | succ n ih =>
    intro st
    rw [runAttempts]
    cases hos : op st with
    | mk s1 b =>
      have h1 : s1 x ≤ st x + 1 := by
        have h0 := hop st
        rw [hos] at h0
        exact h0
      cases b
      · dsimp only
        have h2 := ih s1
        omega
      · dsimp only
        omega

/-- Each task contributes at most `retries + 1` invocations to the
counter at `x` — its own budget when it is the task named `x`, nothing
otherwise. -/
theorem runLoop_counter_bound (x : String) :
    ∀ (fuel : Nat) (remaining : List (STask (String → Nat)))
      (s : String → Nat) (comp fail : List String),
      (∀ t ∈ remaining,
        if t.name = x then (∀ st, (t.op st).1 x ≤ st x + 1)
        else (∀ st, (t.op st).1 x = st x)) →
      (runLoop fuel remaining s comp fail).1 x ≤
        s x + (remaining.map (fun t => if t.name = x then t.retries + 1 else 0)).sum := by
  intro fuel
  induction fuel with
  | zero => intro remaining s comp fail _; exact Nat.le_add_right _ _
  | succ n ih =>
    intro remaining s comp fail hops
    rw [runLoop]
    cases hfe : findEligible comp remaining with
    | none => exact Nat.le_add_right _ _
    | some tr =>
      obtain ⟨t, rest⟩ := tr
      have hperm := findEligible_perm comp remaining t rest hfe
      have hmem : t ∈ remaining := hperm.mem_iff.mpr (List.mem_cons_self _ _)
      have hrest : ∀ u ∈ rest,
          if u.name = x then (∀ st, (u.op st).1 x ≤ st x + 1)
          else (∀ st, (u.op st).1 x = st x) :=
        fun u hu => hops u (hperm.mem_iff.mpr (List.mem_cons_of_mem _ hu))
      have hsum : (remaining.map (fun u => if u.name = x then u.retries + 1 else 0)).sum =
          (if t.name = x then t.retries + 1 else 0) +
            (rest.map (fun u => if u.name = x then u.retries + 1 else 0)).sum := by
        have hs := (hperm.map (fun u => if u.name = x then u.retries + 1 else 0)).sum_eq
        simpa using hs
      have hopt := hops t hmem
      have hstate : (runAttempts t.op (t.retries + 1) s).1 x ≤
          s x + (if t.name = x then t.retries + 1 else 0) := by
        by_cases hn : t.name = x
        · rw [if_pos hn] at hopt ⊢
          exact runAttempts_le_of_incAt t.op x hopt (t.retries + 1) s
        · rw [if_neg hn] at hopt ⊢
          have := runAttempts_invariant t.op (fun st => st x) hopt (t.retries + 1) s
          omega
      dsimp only
      split
      · have h2 := ih rest (runAttempts t.op (t.retries + 1) s).1
          (comp ++ [t.name]) fail hrest
        omega
      · have h2 := ih rest (runAttempts t.op (t.retries + 1) s).1
          comp (fail ++ [t.name]) hrest
        omega

/-- With distinct task names, the total contribution at the name of a
given spec collapses to that spec's budget. -/
theorem sum_contrib_eq (x : String) :
    ∀ (specs : List CSpec) (c : CSpec), c ∈ specs →
      (specs.map CSpec.name).Nodup → c.name = x →
      (specs.map (fun c0 => if c0.name = x then c0.retries + 1 else 0)).sum =
        c.retries + 1 := by
  intro specs
  induction specs with
  | nil => intro c hc; exact absurd hc (List.not_mem_nil c)
  | cons c0 rest ih =>
    intro c hc hnd hx
    rw [List.map_cons, List.nodup_cons] at hnd
    rw [List.map_cons, List.sum_cons]
    rcases List.mem_cons.mp hc with rfl | hr
    · rw [if_pos hx]
      have hzero : (rest.map (fun c1 => if c1.name = x then c1.retries + 1 else 0)).sum = 0 := by
        apply List.sum_eq_zero
        intro a ha
        obtain ⟨c1, hc1, rfl⟩ := List.mem_map.mp ha
        rw [if_neg]
        intro heq
        exact hnd.1 (hx ▸ heq ▸ List.mem_map.mpr ⟨c1, hc1, rfl⟩)
      rw [hzero]
    · have hc0x : c0.name ≠ x := by
        intro h0
        exact hnd.1 (h0 ▸ hx ▸ List.mem_map.mpr ⟨c, hr, rfl⟩)
      rw [if_neg hc0x, ih c hr hnd.2 hx, Nat.zero_add]

/-- Claim C7: a task configured with `retries = N` has its operation
invoked at most `N + 1` times over the whole executor run (the
invocation count is read off the instrumented counter at the task's
name). -/
theorem executor_retry_bound (specs : List CSpec) (s : String → Nat)
    (c : CSpec) (hc : c ∈ specs) (hnd : (specs.map CSpec.name).Nodup) :
    (run_tasks (specs.map mkCountingTask) s).1 c.name ≤
      s c.name + (c.retries + 1) := by
  have hops : ∀ t ∈ specs.map mkCountingTask,
      if t.name = c.name then (∀ st, (t.op st).1 c.name ≤ st c.name + 1)
      else (∀ st, (t.op st).1 c.name = st c.name) := by
    intro t ht
    obtain ⟨c0, _, rfl⟩ := List.mem_map.mp ht
    by_cases h : c0.name = c.name
    · rw [mkCountingTask, create_task, if_pos h]
      intro st
      simp only [countingOp]
      rw [if_pos h.symm, h]
    · rw [mkCountingTask, create_task, if_neg h]
      intro st
      simp only [countingOp]
      rw [if_neg (fun hh => h hh.symm)]
  have hmain := runLoop_counter_bound c.name (specs.map mkCountingTask).length
    (specs.map mkCountingTask) s [] [] hops
  have hsum : ((specs.map mkCountingTask).map
      (fun t => if t.name = c.name then t.retries + 1 else 0)).sum = c.retries + 1 := by
    rw [List.map_map]
    exact sum_contrib_eq c.name specs c hc hnd rfl
  rw [run_tasks]
  rw [hsum] at hmain
  exact hmain

/-- Witness for `executor_retry_bound`: a single always-failing task
with two retries is invoked at most three times. -/
theorem executor_retry_bound_witness :
    cAlwaysFail ∈ [cAlwaysFail] ∧ (([cAlwaysFail].map CSpec.name).Nodup) ∧
    (run_tasks ([cAlwaysFail].map mkCountingTask) (fun _ => 0)).1 cAlwaysFail.name ≤
      (fun _ : String => 0) cAlwaysFail.name + (cAlwaysFail.retries + 1) :=
  ⟨List.mem_singleton.mpr rfl, by decide,
   executor_retry_bound [cAlwaysFail] (fun _ => 0) cAlwaysFail
     (List.mem_singleton.mpr rfl) (by decide)⟩

/-- Lemma: `resource.create` never touches any destroy counter, not even its
own. -/
theorem createOp_destroyN (r : PResource) (st : RSt) (n : String) :
    ((createOp r st).1 n).destroyN = (st n).destroyN := by
  rw [createOp]
  cases hv : validate_create (liftInner r.innerCreate) (lifeOf (st r.local_name)) with
  | error e =>
    dsimp only
    simp only [setR]
    split
    · rename_i hxe
      rw [hxe]
    · rfl
  | ok p =>
    obtain ⟨ls, resp⟩ := p
    dsimp only
    simp only [setR]
    split
    · rename_i hxe
      rw [hxe]
    · rfl

/-- Lemma: `resource.create` only writes its own resource's entry of the run
state. -/
theorem createOp_other (r : PResource) (st : RSt) (x : String)
    (hx : x ≠ r.local_name) : (createOp r st).1 x = st x := by
  rw [createOp]
  cases hv : validate_create (liftInner r.innerCreate) (lifeOf (st r.local_name)) with
  | error e =>
    dsimp only
    simp only [setR]
    rw [if_neg hx]
  | ok p =>
    obtain ⟨ls, resp⟩ := p
    dsimp only
    simp only [setR]
    rw [if_neg hx]

/-- When the `validate_create` wrapper returns `True`, the resulting
lifecycle state is available (either the short-circuit kept it
available, or the response was read off the post-state flag). -/
theorem validate_create_ok_true {σ ρ : Type}
    (f : LifeState σ ρ → Except Exc (LifeState σ ρ × PyRet)) (s s1 : LifeState σ ρ)
    (h : validate_create f s = .ok (s1, true)) : s1.available = true := by
  rw [validate_create] at h
  by_cases hav : s.available = false
  · rw [if_pos hav] at h
    cases hst : s.stack with
    | none => rw [hst] at h; exact Except.noConfusion h
    | some u =>
      rw [hst] at h
      dsimp only at h
      cases hf : f s with
      | error e =>
        rw [hf] at h
        exact Except.noConfusion h
      | ok p =>
        obtain ⟨s2, passed⟩ := p
        rw [hf] at h
        dsimp only at h
        by_cases hp : passed = PyRet.pfalse
        · rw [if_pos hp] at h
          exact absurd (congrArg Prod.snd (Except.ok.inj h)) (by simp)
        · rw [if_neg hp] at h
          have he := Except.ok.inj h
          have h1 : s2 = s1 := congrArg Prod.fst he
          have h2 : s2.available = true := congrArg Prod.snd he
          rw [← h1]
          exact h2
  · rw [if_neg hav] at h
    have h1 : s = s1 := congrArg Prod.fst (Except.ok.inj h)
    rw [← h1]
    simpa using hav

/-- A create operation that reports success leaves its resource
available. -/
theorem createOp_ok_available (r : PResource) (st st1 : RSt)
    (h : createOp r st = (st1, true)) : (st1 r.local_name).available = true := by
  rw [createOp] at h
  cases hv : validate_create (liftInner r.innerCreate) (lifeOf (st r.local_name)) with
  | error e =>
    rw [hv] at h
    dsimp only at h
    exact absurd (congrArg Prod.snd h) (by simp)
  | ok p =>
    obtain ⟨ls, resp⟩ := p
    rw [hv] at h
    dsimp only at h
    have h2 : resp = true := congrArg Prod.snd h
    have h1 := congrArg Prod.fst h
    rw [h2] at hv
    have hav : ls.available = true := validate_create_ok_true _ _ _ hv
    dsimp only at h1
    rw [← h1]
    simpa [setR] using hav

/-- A successful retry loop contains one invocation that actually
returned the final state together with `True`. -/
theorem runAttempts_ok_exists {S : Type} (op : S → S × Bool) :
    ∀ (fuel : Nat) (s : S), (runAttempts op fuel s).2.1 = true →
      ∃ s0, op s0 = ((runAttempts op fuel s).1, true) := by
  intro fuel
  induction fuel with
  | zero => intro s h; exact absurd h (by simp [runAttempts])
  | succ n ih =>
    intro s h
    rw [runAttempts] at h ⊢
    cases hos : op s with
    | mk s1 b =>
      rw [hos] at h
      cases b
      · dsimp only at h ⊢
        exact ih s1 h
      · dsimp only at h ⊢
        exact ⟨s, hos⟩

/-- Scheduling invariant: running create-shaped tasks with distinct
names keeps every completed name's resource available. -/
theorem runLoop_completed_available :
    ∀ (fuel : Nat) (remaining : List (STask RSt)) (s : RSt) (comp fail : List String),
      (∀ t ∈ remaining, ∃ r : PResource, t.op = createOp r ∧ t.name = r.local_name) →
      (∀ nm ∈ comp, (s nm).available = true) →
      (∀ t ∈ remaining, t.name ∉ comp) →
      ((remaining.map (fun t => t.name)).Nodup) →
      ∀ nm ∈ (runLoop fuel remaining s comp fail).2.completed,
        ((runLoop fuel remaining s comp fail).1 nm).available = true := by
  intro fuel
  induction fuel with
  | zero =>
    intro remaining s comp fail _ hcomp _ _ nm hnm
    exact hcomp nm hnm
  | succ n ih =>
    intro remaining s comp fail hcreate hcomp hdisj hnd
    rw [runLoop]
    cases hfe : findEligible comp remaining with
    | none =>
      intro nm hnm
      exact hcomp nm hnm
    | some tr =>
      obtain ⟨t, rest⟩ := tr
      have hperm := findEligible_perm comp remaining t rest hfe
      have hmemt : t ∈ remaining := hperm.mem_iff.mpr (List.mem_cons_self _ _)
      have hsubrest : ∀ u ∈ rest, u ∈ remaining :=
        fun u hu => hperm.mem_iff.mpr (List.mem_cons_of_mem _ hu)
      obtain ⟨r, hop, htname⟩ := hcreate t hmemt
      have hnperm : (remaining.map (fun u => u.name)).Perm
          (t.name :: rest.map (fun u => u.name)) := by
        simpa using hperm.map (fun u => u.name)
      have hnd2 := hnperm.nodup_iff.mp hnd
      rw [List.nodup_cons] at hnd2
      have htouch : ∀ x, x ≠ t.name → (runAttempts t.op (t.retries + 1) s).1 x = s x := by
        intro x hx
        apply runAttempts_invariant t.op (fun st => st x)
        intro st
        rw [hop]
        exact createOp_other r st x (htname ▸ hx)
      dsimp only
      split
      · rename_i hok
        refine ih rest _ (comp ++ [t.name]) fail ?_ ?_ ?_ ?_
        · exact fun u hu => hcreate u (hsubrest u hu)
        · intro nm hnm
          rcases List.mem_append.mp hnm with hin | hsing
          · have hne : nm ≠ t.name := fun he => hdisj t hmemt (he ▸ hin)
            rw [htouch nm hne]
            exact hcomp nm hin
          · have hnmt : nm = t.name := List.mem_singleton.mp hsing
            obtain ⟨s0, hs0⟩ := runAttempts_ok_exists t.op (t.retries + 1) s hok
            rw [hop] at hs0
            have hres := createOp_ok_available r s0 _ hs0
            rw [hnmt, htname, hop]
            exact hres
        · intro u hu hmem2
          rcases List.mem_append.mp hmem2 with hin | hsing
          · exact hdisj u (hsubrest u hu) hin
          · exact hnd2.1 (List.mem_singleton.mp hsing ▸ List.mem_map.mpr ⟨u, hu, rfl⟩)
        · exact hnd2.2
      · refine ih rest _ comp (fail ++ [t.name]) ?_ ?_ ?_ ?_
        · exact fun u hu => hcreate u (hsubrest u hu)
        · intro nm hnm
          have hne : nm ≠ t.name := fun he => hdisj t hmemt (he ▸ hnm)
          rw [htouch nm hne]
          exact hcomp nm hnm
        · exact fun u hu => hdisj u (hsubrest u hu)
        · exact hnd2.2

/-- Claim C6: a `provision_resources` call performs no rollback — no
resource's destroy operation is ever invoked during the call — and
every resource whose create-task completed is left with
`available = true` in the final state (the state in which the
`StackError`, if any, is raised). -/
theorem provision_never_destroys_and_keeps_completed_available
    (resources : List PResource) (s : RSt)
    (hnd : (resources.map PResource.local_name).Nodup) :
    (∀ n, ((provision_resources resources s).1 n).destroyN = (s n).destroyN) ∧
    (∀ nm ∈ (provision_resources resources s).2.1.completed,
      ((provision_resources resources s).1 nm).available = true) := by
  constructor
  · intro n
    have hops : ∀ t ∈ provisionTasks resources, ∀ st : RSt,
        (((t.op st).1 n).destroyN) = ((st n).destroyN) := by
      intro t ht st
      obtain ⟨r, _, rfl⟩ := List.mem_map.mp ht
      exact createOp_destroyN r st n
    exact runLoop_invariant (fun st : RSt => (st n).destroyN)
      (provisionTasks resources).length (provisionTasks resources) s [] [] hops
  · have hcr : ∀ t ∈ provisionTasks resources,
        ∃ r : PResource, t.op = createOp r ∧ t.name = r.local_name := by
      intro t ht
      obtain ⟨r, _, rfl⟩ := List.mem_map.mp ht
      exact ⟨r, rfl, rfl⟩
    have hnames : ((provisionTasks resources).map (fun t => t.name)).Nodup := by
      rw [provisionTasks, List.map_map]
      exact hnd
    exact runLoop_completed_available (provisionTasks resources).length
      (provisionTasks resources) s [] [] hcr
      (fun nm hnm => absurd hnm (List.not_mem_nil nm))
      (fun t _ => List.not_mem_nil _) hnames

/-- Witness for
`provision_never_destroys_and_keeps_completed_available` on a stack of
one succeeding and one failing resource. -/
theorem provision_never_destroys_witness :
    (([resCreateOk, resCreateFail].map PResource.local_name).Nodup) ∧
    (∀ n, ((provision_resources [resCreateOk, resCreateFail] s0Unavailable).1 n).destroyN =
      (s0Unavailable n).destroyN) ∧
    (∀ nm ∈ (provision_resources [resCreateOk, resCreateFail] s0Unavailable).2.1.completed,
      ((provision_resources [resCreateOk, resCreateFail] s0Unavailable).1 nm).available = true) :=
  ⟨by decide,
   (provision_never_destroys_and_keeps_completed_available
     [resCreateOk, resCreateFail] s0Unavailable (by decide)).1,
   (provision_never_destroys_and_keeps_completed_available
     [resCreateOk, resCreateFail] s0Unavailable (by decide)).2⟩
